import Mathlib

/-!
A shallow embedding of `src/src/indexer.py` (class `Indexer`, a wrapper of
the whoosh search library) and proofs about the spec's claims.

The index state is the list of stored documents, in whoosh's internal
document-number order: `writer.add_document` appends, deletion removes.
Behaviour of the pinned external library (whoosh) that the wrapper calls
into is embedded according to whoosh's documented semantics; every such
point is recorded in the doc comment of the definition that embeds it.
The external text analyzer (`ChineseAnalyzer`) and the snippet highlighter
are opaque collaborators and are passed as function parameters.
-/

/-- `Message` from `indexer.py`: the indexed unit.  `post_time` (a
`datetime` in the source) is embedded as an integer timestamp; only its
ordering is ever used. -/
structure Message where
  content : String
  url : String
  chat_id : Int
  post_time : Int
deriving Repr, DecidableEq

/-- `SearchHit` from `indexer.py`: a reconstructed message paired with the
highlighted excerpt produced by the external highlighter. -/
structure SearchHit where
  msg : Message
  highlighted : String
deriving Repr, DecidableEq

/-- `SearchResult` from `indexer.py`. -/
structure SearchResult where
  hits : List SearchHit
  is_last_page : Bool
  total_results : Nat
deriving Repr, DecidableEq

/-- The untyped Python exceptions the code in `indexer.py` can actually
raise on the paths the claims are about.  None of them is one of the
spec's typed failures (`DuplicateKey`, `NotFound`, `EmptyIndex`, ...). -/
inductive PyError where
  | typeError (msg : String)
  | indexError (msg : String)
  | valueError (msg : String)
  | zeroDivisionError
deriving Repr, DecidableEq

/-- `Message.schema` of `indexer.py`, restricted to the one fact queries
depend on: which fields carry an inverted index.  `content` is
`TEXT(stored=True, analyzer=...)`, `url` is `ID(stored=True, unique=True)`,
`post_time` is `DATETIME(stored=True, sortable=True)` — all indexed.
`chat_id` is declared `STORED()`: whoosh's `STORED` field type is stored
only and never indexed (`STORED.indexed = False`), so no posting list for
`chat_id` ever exists. -/
def fieldIndexed : String → Bool
  | "content" => true
  | "url" => true
  | "chat_id" => false
  | "post_time" => true
  | _ => false

/-- A whoosh write session (`self.ix.writer()`): mutations are buffered
and become visible only at commit.  The only mutation `add_document`
performs through a caller-supplied writer is adding documents, so the
buffer is the list of pending additions. -/
structure IndexWriter where
  pending : List Message
deriving Repr, DecidableEq

/-- whoosh `IndexWriter.add_document(**fields)`: buffers the new document.
Per whoosh's documented semantics it performs NO uniqueness check on
`unique=True` fields (only `update_document` does), so a document whose
`url` already exists is buffered as a duplicate. -/
def IndexWriter.add_document (w : IndexWriter) (m : Message) : IndexWriter :=
  ⟨w.pending ++ [m]⟩

/-- whoosh `IndexWriter.commit()`: the buffered additions become visible,
appended in document-number order. -/
def IndexWriter.commit (w : IndexWriter) (ix : List Message) : List Message :=
  ix ++ w.pending

namespace Indexer

/-- `Indexer.add_document(message, writer=None)`: with a caller-supplied
writer it only calls `writer.add_document` (no session of its own, no
commit); with `writer=None` it opens `with self.ix.writer() as writer`,
adds, and the `with` block commits before returning.  Returns the stored
index after the call and the caller's writer session after the call. -/
def add_document (ix : List Message) (m : Message) (writer : Option IndexWriter) :
    List Message × Option IndexWriter :=
  match writer with
  | some w => (ix, some (w.add_document m))
  | none => (((⟨[]⟩ : IndexWriter).add_document m).commit ix, none)

/-- `Indexer.delete(url)`: `writer.delete_by_term('url', url)` inside one
write session.  whoosh's `delete_by_term` deletes EVERY document whose
`url` field holds the given term and is a no-op when none does. -/
def delete (ix : List Message) (url : String) : List Message :=
  ix.filter (fun d => d.url != url)

/-- `Indexer.update(content, url)`: `searcher.document(url=url)` returns
the stored fields of the FIRST stored document with that `url`, or Python
`None` when there is none.  In the `None` case the next line
`msg_dict['content'] = content` raises
`TypeError: 'NoneType' object does not support item assignment`; the
writer's `with` block cancels the session on the exception, so the stored
index is unchanged.  Otherwise whoosh `update_document(**msg_dict)` first
deletes every document matching the `unique` field `url`, then adds the
new document (content replaced, other stored fields copied). -/
def update (ix : List Message) (content : String) (url : String) :
    List Message × Option PyError :=
  match ix.find? (fun d => d.url == url) with
  | none => (ix, some (.typeError "NoneType object does not support item assignment"))
  | some d => (delete ix url ++ [{ d with content := content }], none)

/-- `Indexer.retrieve_random_document()`:
`random.choice(list(searcher.documents()))`.  `searcher.documents()`
enumerates the stored fields of every stored document; Python's
`random.choice(seq)` evaluates `seq[i]` at an index `i` drawn uniformly
from `0 .. len(seq)-1` and raises
`IndexError: Cannot choose from an empty sequence` when `seq` is empty.
The draw is embedded as the parameter `k`: `k % ix.length` ranges over
exactly the uniform support. -/
def retrieve_random_document (k : Nat) (ix : List Message) : Except PyError Message :=
  if ix.isEmpty then .error (.indexError "Cannot choose from an empty sequence")
  else .ok (ix.getD (k % ix.length) ⟨"", "", 0, 0⟩)

end Indexer

/-- `QueryParser('content', Message.schema).parse(q_str)`: the analyzer
tokenizes the query text and (with the parser's default `AND` grouping)
the result is the conjunction of one `content`-field term per token. -/
structure ParsedQuery where
  terms : List String
deriving Repr, DecidableEq

/-- Parse a query string with the analyzer `tok` (the external
`ChineseAnalyzer`, passed as an opaque function). -/
def parseQuery (tok : String → List String) (q_str : String) : ParsedQuery :=
  ⟨tok q_str⟩

/-- whoosh `Term('chat_id', c)` matched against a stored document: a term
query reads the field's posting list, and `Message.schema` declares
`chat_id` as `STORED()` which is never indexed, so the matcher is a
`NullMatcher` and matches no document whatever `c` and the document are
(`fieldIndexed "chat_id" = false`). -/
def chatIdTermMatches (c : Int) (d : Message) : Bool :=
  fieldIndexed "chat_id" && decide (d.chat_id = c)

/-- A parsed content query matched against a stored document: every term
must occur among the tokens the analyzer produced from the document's
`content` (the `content` field is indexed with that same analyzer). -/
def ParsedQuery.matchesDoc (tok : String → List String) (q : ParsedQuery)
    (d : Message) : Bool :=
  q.terms.all (fun t => fieldIndexed "content" && (tok d.content).contains t)

/-- The combined query of `Indexer.search`: Python `if in_chats:` is
truthiness, so both `None` and the empty list leave the parsed query
unscoped; a non-empty list wraps it as
`And(q, Or(*[Term('chat_id', c) for c in in_chats]))`. -/
def combinedMatches (tok : String → List String) (q : ParsedQuery)
    (in_chats : Option (List Int)) (d : Message) : Bool :=
  match in_chats with
  | none => q.matchesDoc tok d
  | some cs =>
    if cs.isEmpty then q.matchesDoc tok d
    else q.matchesDoc tok d && cs.any (fun c => chatIdTermMatches c d)

/-- Stable insertion into a list sorted by descending `post_time`: the new
element goes in front of the first element no newer than it. -/
def insertByTimeDesc (m : Message) : List Message → List Message
  | [] => [m]
  | x :: xs =>
    if x.post_time ≤ m.post_time then m :: x :: xs
    else x :: insertByTimeDesc m xs

/-- `sortedby='post_time', reverse=True`: descending `post_time`, ties in
the engine's stable internal (document-number) order — embedded as a
stable insertion sort. -/
def sortByPostTimeDesc : List Message → List Message
  | [] => []
  | x :: xs => insertByTimeDesc x (sortByPostTimeDesc xs)

/-- whoosh `ResultsPage`: the page slice of the full sorted result list. -/
structure ResultsPage where
  items : List Message
  total : Nat
  pagecount : Nat
  pagenum : Nat
deriving Repr, DecidableEq

/-- whoosh `ResultsPage.__init__(results, pagenum, pagelen)`:
`total = len(results)` (the count of ALL matching documents, independent
of the page asked for); `pagecount = ceil(total / pagelen)` (a
`ZeroDivisionError` when `pagelen == 0`); raises
`ValueError("Asked for page %s of %s")` when `pagenum > 1` and
`pagenum > pagecount`; otherwise the page holds
`results[(pagenum-1)*pagelen :][: pagelen]`. -/
def ResultsPage.build (results : List Message) (pagenum pagelen : Nat) :
    Except PyError ResultsPage :=
  if pagelen = 0 then .error .zeroDivisionError
  else
    let total := results.length
    let pagecount := (total + pagelen - 1) / pagelen
    if pagenum > 1 ∧ pagenum > pagecount then
      .error (.valueError "Asked for a page past the page count")
    else
      .ok ⟨(results.drop ((pagenum - 1) * pagelen)).take pagelen,
           total, pagecount, pagenum⟩

/-- whoosh `ResultsPage.is_last_page()`:
`pagecount == 0 or pagenum == pagecount`. -/
def ResultsPage.is_last_page (p : ResultsPage) : Bool :=
  p.pagecount == 0 || p.pagenum == p.pagecount

namespace Indexer

/-- `Indexer.search(q_str, in_chats, page_len, page_num)`: parse, scope by
chats, run `searcher.search_page(q, page_num, page_len,
sortedby='post_time', reverse=True)` — which raises
`ValueError("pagenum must be >= 1")` for `page_num < 1` and otherwise
builds a `ResultsPage` — then wrap each page item as a `SearchHit` with
the external highlighter `hl` and return
`SearchResult(hits, result_page.is_last_page(), result_page.total)`. -/
def search (tok : String → List String) (hl : Message → String)
    (ix : List Message) (q_str : String) (in_chats : Option (List Int))
    (page_len : Nat) (page_num : Nat) : Except PyError SearchResult :=
  let q := parseQuery tok q_str
  let results := sortByPostTimeDesc (ix.filter (combinedMatches tok q in_chats))
  if page_num < 1 then .error (.valueError "pagenum must be at least 1")
  else
    match ResultsPage.build results page_num page_len with
    | .error e => .error e
    | .ok p => .ok ⟨p.items.map (fun m => ⟨m, hl m⟩), p.is_last_page, p.total⟩

end Indexer

/-- The index states reachable from the empty index through the document
writer's operations (`add_document` in its own session, `update`,
`delete`). -/
inductive Reachable : List Message → Prop where
  | empty : Reachable []
  | add (ix : List Message) (m : Message) :
      Reachable ix → Reachable (Indexer.add_document ix m none).1
  | upd (ix : List Message) (c u : String) :
      Reachable ix → Reachable (Indexer.update ix c u).1
  | del (ix : List Message) (u : String) :
      Reachable ix → Reachable (Indexer.delete ix u)

/-- A concrete analyzer for the concrete evaluations below: whitespace
tokenization (a stand-in for the opaque external `ChineseAnalyzer`). -/
def wsTok (s : String) : List String :=
  (s.data.splitOn ' ').map (fun cs => String.mk cs)

/-- A concrete highlighter for the concrete evaluations below. -/
def hl0 : Message → String := fun _ => "hl"

/-- Concrete messages sharing the url `"u1"`. -/
def msgA : Message := ⟨"hello world", "u1", 1, 10⟩

def msgB : Message := ⟨"hello again", "u1", 2, 20⟩

/-- Inserting grows the length by one. -/
theorem length_insertByTimeDesc (m : Message) (l : List Message) :
    (insertByTimeDesc m l).length = l.length + 1 := by
  induction l with
  | nil => rfl
  | cons x xs ih =>
    rw [insertByTimeDesc]
    split
    · rfl
    · simp [ih]

theorem mem_insertByTimeDesc {a m : Message} {l : List Message} :
    a ∈ insertByTimeDesc m l ↔ a = m ∨ a ∈ l := by
  induction l with
  | nil => simp [insertByTimeDesc]
  | cons x xs ih =>
    rw [insertByTimeDesc]
    split
    · simp
    · rw [List.mem_cons, ih, List.mem_cons]
      tauto

theorem length_sortByPostTimeDesc (l : List Message) :
    (sortByPostTimeDesc l).length = l.length := by
  induction l with
  | nil => rfl
  | cons x xs ih =>
    rw [sortByPostTimeDesc, length_insertByTimeDesc, ih, List.length_cons]

theorem mem_sortByPostTimeDesc {a : Message} {l : List Message} :
    a ∈ sortByPostTimeDesc l ↔ a ∈ l := by
  induction l with
  | nil => exact Iff.rfl
  | cons x xs ih =>
    rw [sortByPostTimeDesc, mem_insertByTimeDesc, ih, List.mem_cons]

/-- whoosh's last-page flag `pagecount == 0 or pagenum == pagecount`, with
`pagecount = ceil(T / len)`, agrees with `T ≤ num * len` on every page
number the `ResultsPage` constructor accepts. -/
theorem ceil_page_last_iff (T len num : Nat) (hlen : len ≠ 0) (hnum : 1 ≤ num)
    (hrange : ¬(num > 1 ∧ num > (T + len - 1) / len)) :
    (((T + len - 1) / len == 0) || (num == (T + len - 1) / len)) = decide (T ≤ num * len) := by
  set pc := (T + len - 1) / len with hpc
  have hlen' : 0 < len := Nat.pos_of_ne_zero hlen
  have hup : T + len - 1 < pc * len + len := by
    rw [hpc]; exact Nat.lt_div_mul_add hlen'
  have hlow : pc * len ≤ T + len - 1 := by rw [hpc]; exact Nat.div_mul_le_self _ _
  rw [Bool.eq_iff_iff]
  simp only [Bool.or_eq_true, beq_iff_eq, decide_eq_true_eq]
  constructor
  · rintro (h0 | hnumpc)
    · rw [h0] at hup; simp at hup
      have hT : T = 0 := by omega
      simp [hT]
    · rw [hnumpc]; omega
  · intro hT
    have hple : pc ≤ num := by
      have h1 : T + len - 1 < (num + 1) * len := by rw [Nat.succ_mul]; omega
      have h2 := (Nat.div_lt_iff_lt_mul hlen').mpr h1
      omega
    by_cases hgt : 1 < num
    · have hnp : ¬ num > pc := fun hc => hrange ⟨hgt, hc⟩
      right; omega
    · have hnum1 : num = 1 := by omega
      have hpc1 : pc ≤ 1 := by omega
      rcases Nat.le_one_iff_eq_zero_or_eq_one.mp hpc1 with h0 | h1
      · exact Or.inl h0
      · exact Or.inr (by omega)

/-- What a successful `Indexer.search` call guarantees: the reported total
is the number of stored documents matching the combined query (independent
of the page asked for), the last-page flag agrees with
`total ≤ page_num * page_len`, and every hit wraps a stored document that
matches the combined query. -/
theorem search_ok_spec (tok : String → List String) (hl : Message → String)
    (ix : List Message) (q : String) (chats : Option (List Int))
    (len num : Nat) (r : SearchResult)
    (h : Indexer.search tok hl ix q chats len num = .ok r) :
    r.total_results = (ix.filter (combinedMatches tok (parseQuery tok q) chats)).length ∧
    r.is_last_page = decide (r.total_results ≤ num * len) ∧
    ∀ s ∈ r.hits, s.msg ∈ ix ∧ combinedMatches tok (parseQuery tok q) chats s.msg = true := by
  simp only [Indexer.search] at h
  split at h
  · exact absurd h (by simp)
  rename_i hnumge
  split at h
  · exact absurd h (by simp)
  rename_i p hbuild
  injection h with h'
  subst h'
  simp only [ResultsPage.build] at hbuild
  split at hbuild
  · exact absurd hbuild (by simp)
  rename_i hlen0
  split at hbuild
  · exact absurd hbuild (by simp)
  rename_i hrange
  injection hbuild with hb'
  subst hb'
  refine ⟨?_, ?_, ?_⟩
  · simp [length_sortByPostTimeDesc]
  · simp only [ResultsPage.is_last_page]
    have hceil := ceil_page_last_iff
      (sortByPostTimeDesc (ix.filter (combinedMatches tok (parseQuery tok q) chats))).length
      len num hlen0 (by omega) hrange
    simpa using hceil
  · intro s hs
    simp only [List.mem_map] at hs
    obtain ⟨d, hd, rfl⟩ := hs
    have hd' := List.mem_of_mem_drop (List.mem_of_mem_take hd)
    rw [mem_sortByPostTimeDesc] at hd'
    have hmem := List.mem_filter.mp hd'
    exact ⟨hmem.1, hmem.2⟩

/-- Page 1 with a page length at least the index size surfaces every
matching stored document as a hit. -/
theorem hit_of_matches (tok : String → List String) (hl : Message → String)
    (ix : List Message) (q : String) (chats : Option (List Int)) (len : Nat)
    (d : Message) (hlen : ix.length ≤ len) (hlen0 : len ≠ 0)
    (hd : d ∈ ix) (hm : combinedMatches tok (parseQuery tok q) chats d = true) :
    ∃ r, Indexer.search tok hl ix q chats len 1 = .ok r ∧ ∃ s ∈ r.hits, s.msg = d := by
  have hL : (sortByPostTimeDesc (ix.filter (combinedMatches tok (parseQuery tok q) chats))).length ≤ len := by
    simp only [length_sortByPostTimeDesc]
    exact le_trans (List.length_filter_le _ _) hlen
  refine ⟨⟨((sortByPostTimeDesc (ix.filter (combinedMatches tok (parseQuery tok q) chats))).map
             (fun m => ⟨m, hl m⟩)),
          ((((sortByPostTimeDesc (ix.filter (combinedMatches tok (parseQuery tok q) chats))).length
              + len - 1) / len == 0)
            || (1 == ((sortByPostTimeDesc (ix.filter (combinedMatches tok (parseQuery tok q) chats))).length
              + len - 1) / len)),
          (sortByPostTimeDesc (ix.filter (combinedMatches tok (parseQuery tok q) chats))).length⟩,
        ?_, ?_⟩
  · simp only [Indexer.search, ResultsPage.build, hlen0, Nat.lt_irrefl, gt_iff_lt, false_and,
      if_false, if_neg, Nat.sub_self, Nat.zero_mul, List.drop_zero, ite_false,
      List.take_of_length_le hL, ResultsPage.is_last_page]
  · refine ⟨⟨d, hl d⟩, ?_, rfl⟩
    simp only [List.mem_map]
    refine ⟨d, ?_, rfl⟩
    rw [mem_sortByPostTimeDesc]
    exact List.mem_filter.mpr ⟨hd, hm⟩

/-- C1: the spec requires `add` of a message whose `url` is already stored
to fail with `DuplicateKey` and neither overwrite nor duplicate the
existing document.  The code has no duplicate check at all: the add
returns normally, the old document is kept, the new one is stored
alongside it, and in general one add always raises the number of stored
documents carrying its url by one. -/
theorem add_with_existing_url_stores_a_duplicate :
    msgB.url = msgA.url ∧
    (Indexer.add_document [msgA] msgB none).1 = [msgA, msgB] ∧
    ((Indexer.add_document [msgA] msgB none).1.countP (fun d => d.url == msgA.url)) = 2 ∧
    (∀ ix m, ((Indexer.add_document ix m none).1.countP (fun d => d.url == m.url))
        = ix.countP (fun d => d.url == m.url) + 1) := by
  refine ⟨rfl, rfl, by decide, ?_⟩
  intro ix m
  simp [Indexer.add_document, IndexWriter.commit, IndexWriter.add_document, List.countP_append]

/-- C6: the spec's uniqueness invariant — at most one stored document per
url in every reachable state — is violated by the code: two plain adds of
distinct messages sharing the url `"u1"` produce a reachable state stowing
both. -/
theorem reachable_state_violating_url_uniqueness :
    Reachable [msgA, msgB] ∧ msgA.url = msgB.url ∧ msgA ≠ msgB ∧
    1 < ([msgA, msgB].countP (fun d => d.url == "u1")) := by
  refine ⟨?_, rfl, by decide, by decide⟩
  exact Reachable.add [msgA] msgB (Reachable.add [] msgA Reachable.empty)

/-- C9: with a caller-supplied writer, `add_document` only adds to that
session — the stored index is unchanged and nothing is committed; the
addition becomes visible exactly when the caller commits the session.
Only with `writer=None` does it open its own session and commit before
returning, making the message visible immediately. -/
theorem add_document_with_caller_writer_only_buffers :
    (∀ ix m w, Indexer.add_document ix m (some w) = (ix, some ⟨w.pending ++ [m]⟩)) ∧
    (∀ ix m (w : IndexWriter),
      ((Indexer.add_document ix m (some w)).2.getD ⟨[]⟩).commit ix = ix ++ (w.pending ++ [m])) ∧
    (∀ ix m, Indexer.add_document ix m none = (ix ++ [m], none)) :=
  ⟨fun _ _ _ => rfl, fun _ _ _ => rfl, fun _ _ => rfl⟩

/-- C10: one `delete(u)` call removes every stored document whose url is
`u` — also when several share it — and keeps exactly the documents with a
different url. -/
theorem delete_removes_all_documents_with_url :
    (∀ ix u d, d ∈ Indexer.delete ix u → d.url ≠ u ∧ d ∈ ix) ∧
    (∀ ix u d, d ∈ ix → d.url ≠ u → d ∈ Indexer.delete ix u) ∧
    Indexer.delete [msgA, msgB] "u1" = [] := by
  refine ⟨?_, ?_, by decide⟩
  · intro ix u d h
    rw [Indexer.delete, List.mem_filter] at h
    exact ⟨by simpa using h.2, h.1⟩
  · intro ix u d hd hne
    rw [Indexer.delete, List.mem_filter]
    exact ⟨hd, by simpa using hne⟩

/-- C8: on an empty index `retrieve_random_document` raises the untyped
`IndexError` out of `random.choice` instead of the typed `EmptyIndex` the
spec requires; on a non-empty index it returns the stored document picked
by the uniform draw `k % n`. -/
theorem sample_raises_IndexError_on_empty_and_returns_a_stored_document :
    (∀ k, Indexer.retrieve_random_document k [] =
        .error (.indexError "Cannot choose from an empty sequence")) ∧
    (∀ k (ix : List Message), ix ≠ [] →
        Indexer.retrieve_random_document k ix
          = .ok (ix.getD (k % ix.length) ⟨"", "", 0, 0⟩) ∧
        ix.getD (k % ix.length) ⟨"", "", 0, 0⟩ ∈ ix) := by
  constructor
  · intro k; rfl
  · intro k ix hne
    have hpos : 0 < ix.length := List.length_pos.mpr hne
    have hmod : k % ix.length < ix.length := Nat.mod_lt _ hpos
    constructor
    · simp [Indexer.retrieve_random_document, hne]
    · rw [List.getD_eq_getElem?_getD, List.getElem?_eq_getElem hmod]
      exact List.getElem_mem hmod

/-- C3: `update` on a url carried by no stored document raises the
untyped `TypeError` from assigning into Python `None` — not the typed
`NotFound` the spec requires — and leaves the index unchanged (the write
session is cancelled by the exception). -/
theorem update_of_missing_url_raises_TypeError_and_keeps_index
    (ix : List Message) (c u : String) (h : ∀ d ∈ ix, d.url ≠ u) :
    Indexer.update ix c u
      = (ix, some (.typeError "NoneType object does not support item assignment")) := by
  have hf : ix.find? (fun d => d.url == u) = none := by
    rw [List.find?_eq_none]
    intro d hd
    simpa using h d hd
  simp [Indexer.update, hf]

/-- Witness for C3 at a concrete input. -/
theorem update_of_missing_url_raises_TypeError_and_keeps_index_witness :
    Indexer.update [msgA] "bye" "nope"
      = ([msgA], some (.typeError "NoneType object does not support item assignment")) :=
  update_of_missing_url_raises_TypeError_and_keeps_index [msgA] "bye" "nope" (by decide)

/-- C5: updating an existing url succeeds, and the document then fetched
by that url has the new content with `url`, `chat_id` and `post_time`
unchanged from the previously fetched document. -/
theorem update_preserves_identity
    (ix : List Message) (c u : String) (d : Message)
    (h : ix.find? (fun e => e.url == u) = some d) :
    (Indexer.update ix c u).2 = none ∧
    (Indexer.update ix c u).1.find? (fun e => e.url == u)
      = some ⟨c, d.url, d.chat_id, d.post_time⟩ := by
  have hd0 := List.find?_some h
  have hd : (d.url == u) = true := by simpa using hd0
  constructor
  · simp [Indexer.update, h]
  · simp only [Indexer.update, h]
    rw [List.find?_append]
    have h1 : (Indexer.delete ix u).find? (fun e => e.url == u) = none := by
      rw [List.find?_eq_none]
      intro e he
      have h2 := (List.mem_filter.mp he).2
      simp only [bne_iff_ne, ne_eq] at h2
      simpa using h2
    rw [h1]
    simp [List.find?, hd]

/-- Witness for C5 at a concrete input. -/
theorem update_preserves_identity_witness :
    (Indexer.update [msgA] "bye" "u1").2 = none ∧
    (Indexer.update [msgA] "bye" "u1").1.find? (fun e => e.url == "u1")
      = some ⟨"bye", "u1", 1, 10⟩ :=
  update_preserves_identity [msgA] "bye" "u1" msgA rfl

/-- C2: after adding a fresh message, an unfiltered search for one of its
content terms does return a hit with its url — but the same search scoped
to a group filter that contains the message's `chat_id` returns NO hits at
all, because the schema's `chat_id` field is `STORED()`-only and a term
query against it matches nothing. -/
theorem group_filter_never_matches_but_unfiltered_search_finds_message :
    (Indexer.add_document [] msgA none).1 = [msgA] ∧
    msgA.chat_id ∈ ([1] : List Int) ∧
    "hello" ∈ wsTok msgA.content ∧
    Indexer.search wsTok hl0 (Indexer.add_document [] msgA none).1 "hello" (some [1]) 10 1
      = .ok ⟨[], true, 0⟩ ∧
    (∀ (tok : String → List String) (hl : Message → String) (ix : List Message)
        (m : Message) (q t : String),
      (∀ d ∈ ix, d.url ≠ m.url) → tok q = [t] → t ∈ tok m.content →
      ∃ r, Indexer.search tok hl (Indexer.add_document ix m none).1 q none
              (ix.length + 1) 1 = .ok r ∧
           ∃ s ∈ r.hits, s.msg.url = m.url) := by
  refine ⟨rfl, by decide, by decide, rfl, ?_⟩
  intro tok hl ix m q t hfresh hq ht
  have hadd : (Indexer.add_document ix m none).1 = ix ++ [m] := rfl
  have hmatch : combinedMatches tok (parseQuery tok q) none m = true := by
    simp [combinedMatches, parseQuery, ParsedQuery.matchesDoc, hq, fieldIndexed, ht]
  have hlen : (ix ++ [m]).length ≤ ix.length + 1 := by simp
  obtain ⟨r, hr, s, hs, hsm⟩ :=
    hit_of_matches tok hl (ix ++ [m]) q none (ix.length + 1) m hlen
      (Nat.succ_ne_zero _) (by simp) hmatch
  refine ⟨r, by rw [hadd]; exact hr, s, hs, by rw [hsm]⟩

/-- C4: asking for a page strictly past the last non-empty one does not
return an empty page — it raises whoosh's untyped
`ValueError("Asked for page ...")`; on every successfully returned page
the last-page flag does equal `page_num * page_len >= total` and the
total counts every matching document independent of pagination. -/
theorem page_overflow_raises_ValueError_and_is_last_page_formula :
    Indexer.search wsTok hl0 [msgA] "hello" none 10 2
      = .error (.valueError "Asked for a page past the page count") ∧
    (∀ (tok : String → List String) (hl : Message → String) (ix : List Message)
        (q : String) (chats : Option (List Int)) (len num : Nat) (r : SearchResult),
      Indexer.search tok hl ix q chats len num = .ok r →
      r.is_last_page = decide (num * len ≥ r.total_results) ∧
      r.total_results = (ix.filter (combinedMatches tok (parseQuery tok q) chats)).length) := by
  refine ⟨rfl, ?_⟩
  intro tok hl ix q chats len num r h
  obtain ⟨htot, hlast, -⟩ := search_ok_spec tok hl ix q chats len num r h
  exact ⟨by simpa [ge_iff_le] using hlast, htot⟩

/-- C7: `delete` is idempotent (a second delete of the same url is a
further success and a no-op, and deleting an absent url is a no-op, never
an error), and no search over the index after `delete(u)` returns a hit
whose url is `u`. -/
theorem delete_is_idempotent_and_removes_url_from_search :
    (∀ ix u, Indexer.delete (Indexer.delete ix u) u = Indexer.delete ix u) ∧
    (∀ ix u, (∀ d ∈ ix, d.url ≠ u) → Indexer.delete ix u = ix) ∧
    (∀ (tok : String → List String) (hl : Message → String) (ix : List Message)
        (u q : String) (chats : Option (List Int)) (len num : Nat) (r : SearchResult),
      Indexer.search tok hl (Indexer.delete ix u) q chats len num = .ok r →
      ∀ s ∈ r.hits, s.msg.url ≠ u) := by
  refine ⟨?_, ?_, ?_⟩
  · intro ix u
    simp [Indexer.delete, List.filter_filter]
  · intro ix u h
    rw [Indexer.delete, List.filter_eq_self]
    intro a ha
    simpa using h a ha
  · intro tok hl ix u q chats len num r h s hs
    obtain ⟨-, -, hmem⟩ := search_ok_spec tok hl (Indexer.delete ix u) q chats len num r h
    have h1 := (hmem s hs).1
    rw [Indexer.delete, List.mem_filter] at h1
    simpa using h1.2
